import Mathlib

/-!
Verification of the fact-memory consolidation engine in
`src/openwebui-function/memory-re.py` (class `Filter`).

The Python code is shallowly embedded: each method that a claim touches is
translated into an executable Lean definition over explicit state.  External
collaborators (the vector store, the chat-completion transport, the clock)
are passed in as parameters: a store query result is a triple of id / document
/ distance lists, a model call result is an `Option String` (`none` = the
transport raised), and the current formatted local time is a function of the
resolved time zone.
-/

namespace MemoryRE

/-- Python `str in str` (substring containment): is `pat` a prefix of `s`? -/
def isPrefixChars : List Char → List Char → Bool
  | [], _ => true
  | _ :: _, [] => false
  | a :: as, b :: bs => a = b && isPrefixChars as bs

/-- Python `pat in s` over char lists: `pat` occurs contiguously in `s`. -/
def containsChars (pat : List Char) : List Char → Bool
  | [] => pat = []
  | c :: rest => isPrefixChars pat (c :: rest) || containsChars pat rest

/-- Python `pat in s` for strings. -/
def containsSub (s pat : String) : Bool := containsChars pat.data s.data

/-- Python `str.lower()`: lowercase every character. -/
def pyLower (s : String) : String := ⟨s.data.map Char.toLower⟩

/-- Python `str.strip()`: drop leading and trailing whitespace. -/
def pyStrip (s : String) : String :=
  ⟨((s.data.dropWhile Char.isWhitespace).reverse.dropWhile
      Char.isWhitespace).reverse⟩

/-- A retained similarity candidate, as built in `_query_similar_memories`
(`{"id": ids[i], "content": doc, "similarity": similarity}`). -/
structure Candidate where
  id : String
  content : String
  similarity : ℚ
  deriving Repr, DecidableEq

/-- The loop body of `_query_similar_memories` (lines 349-356): for each
returned document compute `similarity = 1 - dists[i]` and append the
candidate when `similarity >= threshold`.  The input is the store result
zipped into `(id, doc, distance)` triples in store rank order. -/
def retrieveLoop (threshold : ℚ) : List (String × String × ℚ) → List Candidate
  | [] => []
  | (i, doc, d) :: rest =>
    let similarity := 1 - d
    if threshold ≤ similarity then
      ⟨i, doc, similarity⟩ :: retrieveLoop threshold rest
    else
      retrieveLoop threshold rest

/-- `Filter._query_similar_memories` (lines 339-359).  The store result is
`(ids, docs, dists)` = `result.ids[0]`, `result.documents[0]`,
`result.distances[0]`; `none` models a falsy result, a result without `ids`,
or a transport error (the `except` branch).  The Python loop indexes
`ids[i]` and `dists[i]` for every `i < len(docs)`; when `docs` is longer
than either list the `IndexError` is caught by the same `except` and the
function returns `[]`. -/
def querySimilarMemories (threshold : ℚ)
    (result : Option (List String × List String × List ℚ)) : List Candidate :=
  match result with
  | none => []
  | some (ids, docs, dists) =>
    if docs.length ≤ ids.length ∧ docs.length ≤ dists.length then
      retrieveLoop threshold (ids.zip (docs.zip dists))
    else
      []

/-- `Filter._analyze_relationship` (lines 361-386).  `llmRes` is the outcome
of `self._call_llm` on the built prompt: `none` when the call (or anything in
the `try` block) raises, `some r` when it returns text `r`.  The returned
`Bool` records whether the model capability was invoked (the call happens
only after the empty-candidates short-circuit).  The response is processed by
`res.lower().strip()` and matched by Python substring containment, `duplicate`
first, then `update`, else `new`. -/
def analyzeRelationship (similarMemories : List Candidate)
    (llmRes : Option String) : (String × List String) × Bool :=
  if similarMemories.isEmpty then
    (("new", []), false)
  else
    match llmRes with
    | none => (("new", []), true)
    | some r =>
      let res := pyStrip (pyLower r)
      if containsSub res "duplicate" then
        (("skip", []), true)
      else if containsSub res "update" then
        (("update", similarMemories.map (·.id)), true)
      else
        (("new", []), true)

/-- Resolved time zone: `pytz.timezone(name)` succeeds on a known name,
otherwise `pytz.utc` is used. -/
inductive Tz where
  | named (name : String)
  | utc
  deriving Repr, DecidableEq

/-- The `try: tz = pytz.timezone(...) except UnknownTimeZoneError: tz = pytz.utc`
block of `_save_memory_native` (lines 328-331): `knownZones` is the set of
zone names `pytz` recognises. -/
def resolveTimezone (knownZones : List String) (name : String) : Tz :=
  if name ∈ knownZones then .named name else .utc

/-- An operation issued to the external memory store. -/
inductive StoreOp where
  | add (text : String)
  | delete (id : String)
  deriving Repr, DecidableEq

/-- `Filter._save_memory_native` (lines 326-337): resolve the configured
zone (UTC fallback), format the current local time
(`datetime.datetime.now(tz).strftime(...)`, modelled by the external
`localTime : Tz → String`), prepend it to the content with a fullwidth
colon, and call the store add capability with the result. -/
def saveMemoryNative (knownZones : List String) (tzName : String)
    (localTime : Tz → String) (content : String) : StoreOp :=
  let tz := resolveTimezone knownZones tzName
  let nowStr := localTime tz
  .add (nowStr ++ "：" ++ content)

/-- The store-facing part of one iteration of the fact loop in
`Filter._process_memory` (lines 260-288), on the path where no store call
raises: classify the fact against its similar memories, `skip` issues no
store operation, `update` with non-empty targets deletes every target id in
order and then saves, anything else just saves. -/
def processFactOps (knownZones : List String) (tzName : String)
    (localTime : Tz → String) (fact : String)
    (similarMemories : List Candidate) (llmRes : Option String) :
    List StoreOp :=
  let act := (analyzeRelationship similarMemories llmRes).1
  if act.1 = "skip" then
    []
  else
    (if act.1 = "update" ∧ act.2 ≠ [] then act.2.map StoreOp.delete else [])
      ++ [saveMemoryNative knownZones tzName localTime fact]

/-! ### Consolidation trigger and in-flight guard

`Filter` keeps two class-level variables: `_user_memory_counters`
(dict user-id → int) and `_summarization_running` (set of user ids).
We embed them, together with the tasks spawned by `asyncio.create_task`,
as an explicit state record.  A spawned task is appended to the matching
`pending` list; its body runs later. -/

/-- `dict.get(uid, 0)` over an association list. -/
def lookupD (m : List (String × Nat)) (uid : String) : Nat :=
  match m with
  | [] => 0
  | (k, v) :: rest => if k = uid then v else lookupD rest uid

/-- `m[uid] = v` over an association list (replace or insert). -/
def setAssoc (m : List (String × Nat)) (uid : String) (v : Nat) :
    List (String × Nat) :=
  match m with
  | [] => [(uid, v)]
  | (k, w) :: rest =>
    if k = uid then (uid, v) :: rest else (k, w) :: setAssoc rest uid v

/-- The process-wide state of the `Filter` class plus the spawned tasks:
`counters` is `_user_memory_counters`, `running` is `_summarization_running`,
`pendingConsolidations` / `pendingAudits` record the user ids for which
`asyncio.create_task` has scheduled a `_run_consolidation_task` /
`_run_retroactive_cleanup` body (in scheduling order). -/
structure SysState where
  counters : List (String × Nat)
  running : List String
  pendingConsolidations : List String
  pendingAudits : List String
  deriving Repr, DecidableEq

/-- `Filter._increment_counter_and_trigger_summary` (lines 388-397) with
threshold `n` = `valves.summarize_after_n_memories`: increment the user's
counter; if it reaches or exceeds `n` and the user is not in
`_summarization_running`, reset the counter to 0 and spawn a consolidation
task.  When the user is in the running set nothing else happens: neither a
reset nor a spawn. -/
def incrementCounterAndTriggerSummary (n : Nat) (uid : String)
    (st : SysState) : SysState :=
  let count := lookupD st.counters uid + 1
  let counters1 := setAssoc st.counters uid count
  if n ≤ count then
    if uid ∉ st.running then
      { st with
        counters := setAssoc counters1 uid 0
        pendingConsolidations := st.pendingConsolidations ++ [uid] }
    else
      { st with counters := counters1 }
  else
    { st with counters := counters1 }

/-- `k` consecutive successful fact saves for `uid`: `_process_memory`
calls `_increment_counter_and_trigger_summary` once per fact that was
stored without error (line 288). -/
def iterateSaves (n : Nat) (uid : String) (k : Nat) (st : SysState) :
    SysState :=
  match k with
  | 0 => st
  | k + 1 => incrementCounterAndTriggerSummary n uid (iterateSaves n uid k st)

/-- Start of the `_run_consolidation_task` body (lines 399-402): the spawned
task begins running, adds its user id to `_summarization_running` before any
work. -/
def consolidationBegin (uid : String) (st : SysState) : SysState :=
  { st with
    running := if uid ∈ st.running then st.running else uid :: st.running
    pendingConsolidations := st.pendingConsolidations.erase uid }

/-- End of the `_run_consolidation_task` body (lines 403-408): the `finally`
block discards the user id from `_summarization_running`, on success or
failure. -/
def consolidationEnd (uid : String) (st : SysState) : SysState :=
  { st with running := st.running.filter (· ≠ uid) }

/-- The dispatch part of `Filter.outlet` (lines 144-166): return unchanged
when the plugin is disabled, there is no user, or fewer than two messages;
otherwise in cleanup mode spawn a `_run_retroactive_cleanup` task for the
user — without consulting `_summarization_running` — and in normal mode run
the per-fact pipeline (whose trigger effects are the `iterateSaves` steps,
applied separately). -/
def outletDispatch (enabled cleanupEnabled hasUser : Bool) (nMessages : Nat)
    (uid : String) (st : SysState) : SysState :=
  if ¬enabled ∨ ¬hasUser ∨ nMessages < 2 then
    st
  else if cleanupEnabled then
    { st with pendingAudits := st.pendingAudits ++ [uid] }
  else
    st

/-- The effect of a whole `_run_retroactive_cleanup` task body (lines
183-240) on the class state: the body only talks to the store and the model;
it never reads or writes `_summarization_running` or the counters.  The
spawned task is removed from the pending list once it has run. -/
def cleanupTaskSysEffect (uid : String) (st : SysState) : SysState :=
  { st with pendingAudits := st.pendingAudits.erase uid }

/-- The store-facing part of `_run_retroactive_cleanup` (lines 183-240):
the ids passed to `delete_memory_by_id`, in order.  `queryRes` is the
wildcard store query outcome (`none` models a falsy result, missing or
empty `result.ids`/`result.ids[0]`, or a raised error); `auditIds` is the
id list returned by `_call_llm_json` on the audit prompt (that helper
returns `[]` on any error).  A batch size ≤ 0 returns immediately; a doc
list longer than the id list raises `IndexError` inside the `try`, caught
by the outer `except`, so nothing is deleted; only returned ids that are in
`valid_batch_ids` (the ids paired with the fetched docs) reach the delete
capability. -/
def runRetroactiveCleanupDeletes (batchSize : ℤ)
    (queryRes : Option (List String × List String))
    (auditIds : List String) : List String :=
  if batchSize ≤ 0 then
    []
  else
    match queryRes with
    | none => []
    | some (ids, docs) =>
      if docs.length ≤ ids.length then
        let validBatchIds := ids.take docs.length
        if docs.isEmpty then [] else auditIds.filter (· ∈ validBatchIds)
      else
        []

/-- The id batch fetched by the cleanup query, for stating containment. -/
def fetchedBatch (queryRes : Option (List String × List String)) :
    List String :=
  match queryRes with
  | none => []
  | some (ids, _) => ids

/-- The candidate built from one store result triple `(id, doc, distance)`:
`similarity = 1 - distance`, as computed at line 350. -/
def mkCandidate (t : String × String × ℚ) : Candidate :=
  ⟨t.1, t.2.1, 1 - t.2.2⟩

/-! ### Helper lemmas -/

theorem lookupD_setAssoc_self (m : List (String × Nat)) (uid : String)
    (v : Nat) : lookupD (setAssoc m uid v) uid = v := by
  induction m with
  | nil => simp [setAssoc, lookupD]
  | cons p rest ih =>
    obtain ⟨k, w⟩ := p
    by_cases h : k = uid
    · subst h
      simp [setAssoc, lookupD]
    · simp [setAssoc, lookupD, h, ih]

theorem retrieveLoop_eq_filter (threshold : ℚ)
    (l : List (String × String × ℚ)) :
    retrieveLoop threshold l
      = (l.map mkCandidate).filter (fun c => threshold ≤ c.similarity) := by
  induction l with
  | nil => rfl
  | cons t rest ih =>
    obtain ⟨i, doc, d⟩ := t
    by_cases h : threshold ≤ 1 - d
    · simp [retrieveLoop, mkCandidate, h, ih]
    · simp [retrieveLoop, mkCandidate, h, ih]

/-! ### Claim theorems -/

/-- C5: for every store query result, the retriever computes
`similarity = 1 - distance` per record, keeps exactly the candidates with
`similarity ≥ threshold` (a tie at the threshold passes the `≥` test), and
returns them as a sublist of the store's rank order, never re-sorting. -/
theorem querySimilarMemories_spec (threshold : ℚ) (ids docs : List String)
    (dists : List ℚ) (h₁ : docs.length ≤ ids.length)
    (h₂ : docs.length ≤ dists.length) :
    querySimilarMemories threshold (some (ids, docs, dists))
        = ((ids.zip (docs.zip dists)).map mkCandidate).filter
            (fun c => threshold ≤ c.similarity) ∧
    List.Sublist (querySimilarMemories threshold (some (ids, docs, dists)))
        ((ids.zip (docs.zip dists)).map mkCandidate) ∧
    ∀ c ∈ querySimilarMemories threshold (some (ids, docs, dists)),
      threshold ≤ c.similarity := by
  have key : querySimilarMemories threshold (some (ids, docs, dists))
      = retrieveLoop threshold (ids.zip (docs.zip dists)) := by
    simp [querySimilarMemories, h₁, h₂]
  refine ⟨?_, ?_, ?_⟩
  · rw [key, retrieveLoop_eq_filter]
  · rw [key, retrieveLoop_eq_filter]
    exact List.filter_sublist _
  · intro c hc
    rw [key, retrieveLoop_eq_filter] at hc
    simpa using (List.mem_filter.mp hc).2

/-- C5 witness: threshold 3/4, two results at distances 1/4 and 1/2; the
first has similarity exactly 3/4 and is kept (tie included), the second has
similarity 1/2 and is dropped. -/
theorem querySimilarMemories_spec_witness :
    querySimilarMemories (3/4) (some (["a", "b"], ["x", "y"], [1/4, 1/2]))
        = (((["a", "b"].zip (["x", "y"].zip [1/4, 1/2]))).map
            mkCandidate).filter (fun c => (3/4 : ℚ) ≤ c.similarity) ∧
    List.Sublist
      (querySimilarMemories (3/4) (some (["a", "b"], ["x", "y"], [1/4, 1/2])))
      ((["a", "b"].zip (["x", "y"].zip [1/4, 1/2])).map mkCandidate) ∧
    ∀ c ∈ querySimilarMemories (3/4)
        (some (["a", "b"], ["x", "y"], [1/4, 1/2])),
      (3/4 : ℚ) ≤ c.similarity :=
  querySimilarMemories_spec (3/4) ["a", "b"] ["x", "y"] [1/4, 1/2]
    (by decide) (by decide)

/-- C6: with no similarity candidates the classifier short-circuits to
`("new", [])` and the model capability is not invoked (the `Bool` component
records an invocation). -/
theorem analyzeRelationship_no_candidates (llmRes : Option String) :
    analyzeRelationship [] llmRes = (("new", []), false) := rfl

/-- C8: with a non-empty candidate set, a model/transport failure during
classification (`llmRes = none`, i.e. `_call_llm` raised) fails open to
`("new", [])`: the fact is treated as new rather than dropped. -/
theorem analyzeRelationship_fail_open (cands : List Candidate)
    (h : cands ≠ []) :
    analyzeRelationship cands none = (("new", []), true) := by
  cases cands with
  | nil => exact absurd rfl h
  | cons c rest => rfl

/-- C8 witness: one concrete candidate, failed model call. -/
theorem analyzeRelationship_fail_open_witness :
    analyzeRelationship [⟨"a", "x", 1⟩] none = (("new", []), true) :=
  analyzeRelationship_fail_open [⟨"a", "x", 1⟩] (by decide)

/-- C10: keyword matching on the lowercased (and stripped) model response is
ordered: `duplicate` anywhere in the response yields `("skip", [])` even if
`update` also occurs; `update` is consulted only when `duplicate` is absent
and yields all candidate ids; neither keyword yields `("new", [])`. -/
theorem analyzeRelationship_keyword_order (cands : List Candidate)
    (r : String) (h : cands ≠ []) :
    (containsSub (pyStrip (pyLower r)) "duplicate" = true →
      (analyzeRelationship cands (some r)).1 = ("skip", [])) ∧
    (containsSub (pyStrip (pyLower r)) "duplicate" = false →
      containsSub (pyStrip (pyLower r)) "update" = true →
      (analyzeRelationship cands (some r)).1
        = ("update", cands.map (·.id))) ∧
    (containsSub (pyStrip (pyLower r)) "duplicate" = false →
      containsSub (pyStrip (pyLower r)) "update" = false →
      (analyzeRelationship cands (some r)).1 = ("new", [])) := by
  cases cands with
  | nil => exact absurd rfl h
  | cons c rest =>
    refine ⟨?_, ?_, ?_⟩
    · intro hd
      simp [analyzeRelationship, hd]
    · intro hd hu
      simp [analyzeRelationship, hd, hu]
    · intro hd hu
      simp [analyzeRelationship, hd, hu]

/-- C10 witness: a response containing both keywords is classified `skip`
(the `duplicate` branch wins). -/
theorem analyzeRelationship_keyword_order_witness :
    (analyzeRelationship [⟨"a", "x", 1⟩]
        (some " Update — DUPLICATE of old ")).1 = ("skip", []) :=
  (analyzeRelationship_keyword_order [⟨"a", "x", 1⟩]
      " Update — DUPLICATE of old " (by decide)).1 (by decide)

/-- C4: when a fact is classified `update` against a non-empty candidate set
(the response contains `update` but not `duplicate`), the target ids are the
ids of all candidates — the full list, in order — and the issued store
operations delete every one of those ids before the single add of the new
timestamped fact text. -/
theorem processFact_update_deletes_all_then_adds (knownZones : List String)
    (tzName : String) (localTime : Tz → String) (fact : String)
    (cands : List Candidate) (r : String) (h : cands ≠ [])
    (hd : containsSub (pyStrip (pyLower r)) "duplicate" = false)
    (hu : containsSub (pyStrip (pyLower r)) "update" = true) :
    (analyzeRelationship cands (some r)).1.2 = cands.map (·.id) ∧
    processFactOps knownZones tzName localTime fact cands (some r)
      = (cands.map (·.id)).map StoreOp.delete
          ++ [saveMemoryNative knownZones tzName localTime fact] := by
  cases cands with
  | nil => exact absurd rfl h
  | cons c rest =>
    have ha : (analyzeRelationship (c :: rest) (some r)).1
        = ("update", (c :: rest).map (·.id)) := by
      simp [analyzeRelationship, hd, hu]
    refine ⟨by rw [ha], ?_⟩
    simp [processFactOps, ha]

/-- C4 witness: two candidates, response "update": both ids are deleted, in
order, then the timestamped fact is added. -/
theorem processFact_update_witness :
    (analyzeRelationship [⟨"id1", "c1", 1⟩, ⟨"id2", "c2", 4/5⟩]
        (some "update")).1.2 = [ "id1", "id2" ] ∧
    processFactOps [] "UTC" (fun _ => "T") "f"
        [⟨"id1", "c1", 1⟩, ⟨"id2", "c2", 4/5⟩] (some "update")
      = [StoreOp.delete "id1", StoreOp.delete "id2",
         saveMemoryNative [] "UTC" (fun _ => "T") "f"] :=
  processFact_update_deletes_all_then_adds [] "UTC" (fun _ => "T") "f"
    [⟨"id1", "c1", 1⟩, ⟨"id2", "c2", 4/5⟩] "update"
    (by decide) (by decide) (by decide)

/-- C9: the writer resolves the configured zone name, using UTC when the
name is unknown (the fallback is total — no exception path), and the text
given to the store add capability is the current localized timestamp
prepended to the fact. -/
theorem saveMemoryNative_spec (knownZones : List String) (tzName : String)
    (localTime : Tz → String) (content : String) :
    (tzName ∉ knownZones →
      saveMemoryNative knownZones tzName localTime content
        = .add (localTime .utc ++ "：" ++ content)) ∧
    (tzName ∈ knownZones →
      saveMemoryNative knownZones tzName localTime content
        = .add (localTime (.named tzName) ++ "：" ++ content)) := by
  constructor
  · intro hn
    simp [saveMemoryNative, resolveTimezone, hn]
  · intro hy
    simp [saveMemoryNative, resolveTimezone, hy]

/-- C9 witness: an unknown zone name falls back to UTC, a known one is
used as named; both store the timestamp-prefixed text. -/
theorem saveMemoryNative_spec_witness :
    saveMemoryNative ["Asia/Shanghai"] "Mars/Olympus"
        (fun tz => if tz = .utc then "U" else "L") "f"
      = .add ((fun tz => if tz = Tz.utc then "U" else "L") Tz.utc ++ "："
          ++ "f") ∧
    saveMemoryNative ["Asia/Shanghai"] "Asia/Shanghai"
        (fun tz => if tz = .utc then "U" else "L") "f"
      = .add ((fun tz => if tz = Tz.utc then "U" else "L")
          (Tz.named "Asia/Shanghai") ++ "：" ++ "f") :=
  ⟨(saveMemoryNative_spec ["Asia/Shanghai"] "Mars/Olympus"
      (fun tz => if tz = .utc then "U" else "L") "f").1 (by decide),
   (saveMemoryNative_spec ["Asia/Shanghai"] "Asia/Shanghai"
      (fun tz => if tz = .utc then "U" else "L") "f").2 (by decide)⟩

/-- C7: every id the auditor passes to the store delete capability is drawn
from the originally fetched batch; an id returned by the audit model that is
absent from the batch is ignored and never deleted. -/
theorem runRetroactiveCleanup_only_batch (batchSize : ℤ)
    (queryRes : Option (List String × List String))
    (auditIds : List String) :
    (∀ x ∈ runRetroactiveCleanupDeletes batchSize queryRes auditIds,
      x ∈ fetchedBatch queryRes) ∧
    (∀ x ∈ auditIds, x ∉ fetchedBatch queryRes →
      x ∉ runRetroactiveCleanupDeletes batchSize queryRes auditIds) := by
  have main : ∀ x ∈ runRetroactiveCleanupDeletes batchSize queryRes auditIds,
      x ∈ fetchedBatch queryRes := by
    intro x hx
    by_cases hb : batchSize ≤ 0
    · simp [runRetroactiveCleanupDeletes, hb] at hx
    · match queryRes with
      | none => simp [runRetroactiveCleanupDeletes, hb] at hx
      | some (ids, docs) =>
        by_cases hl : docs.length ≤ ids.length
        · by_cases he : docs.isEmpty
          · simp [runRetroactiveCleanupDeletes, hb, hl, he] at hx
          · simp only [runRetroactiveCleanupDeletes, if_neg hb, if_pos hl,
              if_neg he, List.mem_filter, decide_eq_true_eq] at hx
            simpa [fetchedBatch] using List.take_subset _ _ hx.2
        · simp [runRetroactiveCleanupDeletes, hb, hl] at hx
  refine ⟨main, ?_⟩
  intro x _ hnb hmem
  exact hnb (main x hmem)

/-- C7 witness: the model returns ids "a" (in the batch) and "b" (not in
the batch); "b" is never deleted. -/
theorem runRetroactiveCleanup_only_batch_witness :
    "b" ∉ runRetroactiveCleanupDeletes 50 (some (["a"], ["da"]))
        ["a", "b"] :=
  (runRetroactiveCleanup_only_batch 50 (some (["a"], ["da"]))
      ["a", "b"]).2 "b" (by decide) (by decide)

/-- When the user is in the running set, an increment never schedules a
consolidation task, whatever the counter value (shared helper for the
trigger claims). -/
theorem increment_pending_of_inflight (n : Nat) (uid : String)
    (st : SysState) (hin : uid ∈ st.running) :
    (incrementCounterAndTriggerSummary n uid st).pendingConsolidations
        = st.pendingConsolidations := by
  unfold incrementCounterAndTriggerSummary
  by_cases h : n ≤ lookupD st.counters uid + 1
  · simp [h, hin]
  · simp [h]

/-- Below the threshold, `k` saves just count up: the counter reads `k`,
and the running set and the pending task lists are untouched. -/
theorem iterateSaves_below (n : Nat) (uid : String) (st : SysState)
    (h0 : lookupD st.counters uid = 0) :
    ∀ k, k < n →
      lookupD (iterateSaves n uid k st).counters uid = k ∧
      (iterateSaves n uid k st).running = st.running ∧
      (iterateSaves n uid k st).pendingConsolidations
        = st.pendingConsolidations := by
  intro k
  induction k with
  | zero => exact fun _ => ⟨h0, rfl, rfl⟩
  | succ k ih =>
    intro hk
    obtain ⟨hc, hr, hp⟩ := ih (Nat.lt_of_succ_lt hk)
    have hstep : iterateSaves n uid (k + 1) st
        = incrementCounterAndTriggerSummary n uid (iterateSaves n uid k st) :=
      rfl
    have hcond : ¬n ≤ k + 1 := by omega
    refine ⟨?_, ?_, ?_⟩ <;>
      simp [hstep, incrementCounterAndTriggerSummary, hcond, hc, hr, hp,
        lookupD_setAssoc_self]

/-- C1 counterexample: user "u" has counter 1 and an in-flight task;
threshold 2.  The next save crosses the threshold while in flight: no task
is scheduled (as the claim says) but the counter is NOT reset to 0 — it
reads 2, refuting "the counter is reset to 0 immediately after the
threshold crossing". -/
theorem trigger_inflight_counter_not_reset_cex :
    "u" ∈ (SysState.mk [("u", 1)] ["u"] [] []).running ∧
    2 ≤ lookupD (SysState.mk [("u", 1)] ["u"] [] []).counters "u" + 1 ∧
    (incrementCounterAndTriggerSummary 2 "u"
        (SysState.mk [("u", 1)] ["u"] [] [])).pendingConsolidations = [] ∧
    lookupD (incrementCounterAndTriggerSummary 2 "u"
        (SysState.mk [("u", 1)] ["u"] [] [])).counters "u" ≠ 0 := by
  decide

/-- C1 amended: while a consolidation task for the user is in flight, a
threshold crossing schedules no second task, and the counter is not reset:
it keeps its incremented value (the reset happens only on the branch that
schedules a task). -/
theorem trigger_inflight_no_second_task (n : Nat) (uid : String)
    (st : SysState) (hin : uid ∈ st.running) :
    (incrementCounterAndTriggerSummary n uid st).pendingConsolidations
        = st.pendingConsolidations ∧
    lookupD (incrementCounterAndTriggerSummary n uid st).counters uid
        = lookupD st.counters uid + 1 := by
  refine ⟨increment_pending_of_inflight n uid st hin, ?_⟩
  unfold incrementCounterAndTriggerSummary
  by_cases h : n ≤ lookupD st.counters uid + 1
  · simp [h, hin, lookupD_setAssoc_self]
  · simp [h, lookupD_setAssoc_self]

/-- C1 amended witness: threshold 2, counter 1, "u" in flight. -/
theorem trigger_inflight_no_second_task_witness :
    (incrementCounterAndTriggerSummary 2 "u"
        (SysState.mk [("u", 1)] ["u"] [] [])).pendingConsolidations
      = (SysState.mk [("u", 1)] ["u"] [] []).pendingConsolidations ∧
    lookupD (incrementCounterAndTriggerSummary 2 "u"
        (SysState.mk [("u", 1)] ["u"] [] [])).counters "u"
      = lookupD (SysState.mk [("u", 1)] ["u"] [] []).counters "u" + 1 :=
  trigger_inflight_no_second_task 2 "u" (SysState.mk [("u", 1)] ["u"] [] [])
    (by decide)

/-- C3: starting from counter 0 with no in-flight task, the n-th
consecutive successful save schedules exactly one consolidation task and
leaves the counter at 0; after fewer than n saves no task has been
scheduled. -/
theorem consolidation_after_n_saves (n : Nat) (uid : String) (st : SysState)
    (hn : 0 < n) (h0 : lookupD st.counters uid = 0)
    (hr : uid ∉ st.running) :
    (iterateSaves n uid n st).pendingConsolidations
        = st.pendingConsolidations ++ [uid] ∧
    lookupD (iterateSaves n uid n st).counters uid = 0 ∧
    ∀ k < n, (iterateSaves n uid k st).pendingConsolidations
        = st.pendingConsolidations := by
  obtain ⟨m, rfl⟩ : ∃ m, n = m + 1 := ⟨n - 1, by omega⟩
  obtain ⟨hc, hrun, hp⟩ := iterateSaves_below (m + 1) uid st h0 m (by omega)
  have hstep : iterateSaves (m + 1) uid (m + 1) st
      = incrementCounterAndTriggerSummary (m + 1) uid
          (iterateSaves (m + 1) uid m st) := rfl
  have hnotin : uid ∉ (iterateSaves (m + 1) uid m st).running := by
    rw [hrun]; exact hr
  refine ⟨?_, ?_,
    fun k hk => (iterateSaves_below (m + 1) uid st h0 k hk).2.2⟩
  · rw [hstep]
    simp [incrementCounterAndTriggerSummary, hc, hnotin, hp]
  · rw [hstep]
    simp [incrementCounterAndTriggerSummary, hc, hnotin,
      lookupD_setAssoc_self]

/-- C3 witness: threshold 3, fresh user: the third save schedules the one
task and resets the counter; after two saves nothing is scheduled. -/
theorem consolidation_after_n_saves_witness :
    (iterateSaves 3 "u" 3 (SysState.mk [] [] [] [])).pendingConsolidations
        = (SysState.mk [] [] [] []).pendingConsolidations ++ ["u"] ∧
    lookupD (iterateSaves 3 "u" 3 (SysState.mk [] [] [] [])).counters "u"
        = 0 ∧
    (iterateSaves 3 "u" 2 (SysState.mk [] [] [] [])).pendingConsolidations
        = (SysState.mk [] [] [] []).pendingConsolidations :=
  ⟨(consolidation_after_n_saves 3 "u" (SysState.mk [] [] [] [])
      (by decide) (by decide) (by decide)).1,
   (consolidation_after_n_saves 3 "u" (SysState.mk [] [] [] [])
      (by decide) (by decide) (by decide)).2.1,
   (consolidation_after_n_saves 3 "u" (SysState.mk [] [] [] [])
      (by decide) (by decide) (by decide)).2.2 2 (by omega)⟩

/-- C2 counterexample: with "u" flagged in flight, `outlet` in cleanup mode
still spawns a Retroactive Auditor task for "u" (refuting "a new task is
never started for a user while that user's flag is set"), and a running
auditor task leaves the in-flight set empty (refuting "every such task
marks itself in the in-flight set before doing any work"). -/
theorem auditor_unguarded_cex :
    "u" ∈ (SysState.mk [] ["u"] [] []).running ∧
    (outletDispatch true true true 2 "u"
        (SysState.mk [] ["u"] [] [])).pendingAudits = ["u"] ∧
    (cleanupTaskSysEffect "u" (SysState.mk [] [] [] ["u"])).running = [] := by
  decide

/-- C2 amended: the in-flight flag guards only the Background Consolidator:
its task body adds the user on start and removes it on completion or
failure, and the trigger schedules no new consolidation task while the flag
is set.  The Retroactive Auditor does not participate: `outlet` spawns it
without consulting the flag and its body never modifies the in-flight set. -/
theorem inflight_guard_consolidation_only (n : Nat) (uid : String)
    (st₁ st₂ st₃ st₄ : SysState) (hin : uid ∈ st₁.running) :
    (incrementCounterAndTriggerSummary n uid st₁).pendingConsolidations
        = st₁.pendingConsolidations ∧
    uid ∈ (consolidationBegin uid st₂).running ∧
    uid ∉ (consolidationEnd uid st₃).running ∧
    (cleanupTaskSysEffect uid st₄).running = st₄.running := by
  refine ⟨increment_pending_of_inflight n uid st₁ hin, ?_, ?_, rfl⟩
  · by_cases h : uid ∈ st₂.running <;> simp [consolidationBegin, h]
  · simp [consolidationEnd]

/-- C2 amended witness: concrete states for each conjunct. -/
theorem inflight_guard_consolidation_only_witness :
    (incrementCounterAndTriggerSummary 2 "u"
        (SysState.mk [("u", 5)] ["u"] [] [])).pendingConsolidations
      = (SysState.mk [("u", 5)] ["u"] [] []).pendingConsolidations ∧
    "u" ∈ (consolidationBegin "u" (SysState.mk [] [] ["u"] [])).running ∧
    "u" ∉ (consolidationEnd "u" (SysState.mk [] ["u"] [] [])).running ∧
    (cleanupTaskSysEffect "u" (SysState.mk [] [] [] ["u"])).running
      = (SysState.mk [] [] [] ["u"]).running :=
  inflight_guard_consolidation_only 2 "u" (SysState.mk [("u", 5)] ["u"] [] [])
    (SysState.mk [] [] ["u"] []) (SysState.mk [] ["u"] [] [])
    (SysState.mk [] [] [] ["u"]) (by decide)

end MemoryRE
